import Mathlib

/-!
Verification of the pync repository (`src/pync/netcat.py`, `src/pync/process.py`)
against its natural-language specification.

The Python source is shallowly embedded: pure helpers become Lean functions,
the stateful relay loop becomes an explicit step function over a state record,
exceptions become `Except`/`Option` results, and generator-based iteration
becomes recursion over the list of per-port outcomes supplied by the
environment (the network).  Machine integers in the source are plain Python
ints, so they are modelled as `Int`/`Nat` with no overflow.
-/

/-! ## Port-token parsing

Embeds `NetcatArgumentParser.port` (netcat.py lines 1404-1431),
`NetcatArgumentParser._valid_port` (line 1377) and `NetcatPortAction`
(lines 1181-1200).  A port token is a string, handled as its character list;
`int(...)` on a string is modelled by `pyInt` (optional sign followed by
decimal digits; Python's whitespace/underscore tolerance is not exercised by
the argument grammar).
-/

/-- Decimal value of one digit character, `none` for a non-digit. -/
def digitVal (c : Char) : Option Nat :=
  if c.isDigit then some (c.toNat - '0'.toNat) else none

/-- Value of a nonempty string of decimal digits, `none` if any character is
not a digit or the list is empty. -/
def digitsVal : List Char → Option Nat
  | [] => none
  | [c] => digitVal c
  | c :: rest =>
    match digitVal c, digitsVal rest with
    | some d, some r => some (d * 10 ^ rest.length + r)
    | _, _ => none

/-- Python `int(s)` on a decimal string literal: optional single sign then
nonempty digits. -/
def pyInt (s : List Char) : Option Int :=
  match s with
  | '-' :: rest => (digitsVal rest).map (fun n => -(n : Int))
  | '+' :: rest => (digitsVal rest).map (fun n => (n : Int))
  | l => (digitsVal l).map (fun n => (n : Int))

/-- Python `value.split('-')`: split on every occurrence of the dash. -/
def splitDash : List Char → List (List Char)
  | [] => [[]]
  | c :: rest =>
    let r := splitDash rest
    if c = '-' then [] :: r
    else
      match r with
      | h :: t => (c :: h) :: t
      | [] => [[c]]

/-- Embeds `NetcatArgumentParser._valid_port`: `1 <= int(value) <= 65535`. -/
def validPort (v : Int) : Bool := 1 ≤ v && v ≤ 65535

/-- A Python `range(start, stop)` of ports (the `compat.range` values produced
by `NetcatArgumentParser.port`). -/
structure PortRange where
  start : Int
  stop : Int
deriving Repr, DecidableEq

/-- The ascending list of ports denoted by a `range(start, stop)`. -/
def PortRange.toList (r : PortRange) : List Int :=
  (List.range (r.stop - r.start).toNat).map (fun i => r.start + (i : Int))

/-- The `except ValueError` fallback of `NetcatArgumentParser.port` (lines
1417-1422): the token as one bare int, validated, as `range(n, n+1)`. -/
def portTokBare (value : List Char) : Option PortRange :=
  match pyInt value with
  | none => none
  | some v => if validPort v then some ⟨v, v + 1⟩ else none

/-- Embeds `NetcatArgumentParser.port` (lines 1404-1431): try to split the token on
`-` into exactly two ints (a range); if the split does not produce exactly two
int-parsable pieces, fall back to the bare int of `portTokBare`.  Range
bounds are swapped when start > end, then both are validated.  `none` models
the `ValueError` that makes argparse reject the token. -/
def portTok (value : List Char) : Option PortRange :=
  match splitDash value with
  | [a, b] =>
    match pyInt a, pyInt b with
    | some s0, some e0 =>
      -- both halves parsed as ints: this is the range path, no fallback
      if s0 > e0 then
        if validPort e0 && validPort s0 then some ⟨e0, s0 + 1⟩ else none
      else
        if validPort s0 && validPort e0 then some ⟨s0, e0 + 1⟩ else none
    | _, _ => portTokBare value
  | _ => portTokBare value

/-- The final value `NetcatPortAction` stores on the namespace: either a plain
integer (exactly one single-port token) or the flattened chain of sorted
ranges. -/
inductive PortValue
  | single (n : Int)
  | seq (l : List Int)
deriving Repr, DecidableEq

/-- Embeds `sorted(values, key=lambda r: r.start)`: Python's `sorted` is a stable
sort; `List.insertionSort` with `≤` on starts is also stable. -/
def sortRanges (vs : List PortRange) : List PortRange :=
  List.insertionSort (fun a b => a.start ≤ b.start) vs

/-- Embeds `itertools.chain(*sorted_values)`, flattened into a list. -/
def chainRanges (vs : List PortRange) : List Int :=
  ((sortRanges vs).map PortRange.toList).flatten

/-- Embeds `NetcatPortAction.__call__` (lines 1183-1200): nothing stored for an empty
token list; a single single-port token stores the plain integer; otherwise the
ranges are sorted by start and chained. -/
def portAction (values : List PortRange) : Option PortValue :=
  match values with
  | [] => none
  | [r] =>
    if r.start = r.stop - 1 then some (.single r.start)
    else some (.seq (chainRanges [r]))
  | vs => some (.seq (chainRanges vs))

/-- argparse applies the `port` type converter to every positional token in
order; any failure rejects the whole command line. -/
def portTokAll : List (List Char) → Option (List PortRange)
  | [] => some []
  | t :: ts =>
    match portTok t, portTokAll ts with
    | some r, some rs => some (r :: rs)
    | _, _ => none

/-- The composition argparse performs on the positional `port` arguments:
every token runs through the `port` type converter (any failure rejects the
command line), then `NetcatPortAction` combines the ranges.  The outer
`Option` is parse success; the inner one is whether a port value was stored. -/
def parsePortArgs (tokens : List String) : Option (Option PortValue) :=
  (portTokAll (tokens.map String.data)).map portAction

example : portTok "8000".data = some ⟨8000, 8001⟩ := by decide
example : portTok "8000-8005".data = some ⟨8000, 8006⟩ := by decide
example : portTok "8005-8000".data = some ⟨8000, 8006⟩ := by decide
example : portTok "0".data = none := by decide
example : portTok "65536".data = none := by decide
example : portTok "".data = none := by decide
example : portTok "-5".data = none := by decide
example : portTok "1-2-3".data = none := by decide
example : parsePortArgs ["8000"] = some (some (.single 8000)) := by decide
example : parsePortArgs ["9000", "8000-8001"] =
    some (some (.seq [8000, 8001, 9000])) := by decide
example : parsePortArgs [] = some none := by decide

/-! ## The relay loop `NetcatConnection.readwrite`

Embeds one iteration of the `while` loop at netcat.py lines 316-394 as a step
function.  The environment supplies what the surrounding world did during the
iteration: the result of the non-blocking `recv`, the result of the stdin
read, the result of `send`, and the value `time.time()` returns at each of
the points the source samples the clock.  Times are integers (the source uses
float seconds; only their ordering and differences matter here).
-/

/-- Result of `self.recv(self.plen, blocking=False)` (lines 271-279, 332-335).
`val none` is the no-data case, `val (some [])` the explicit empty result
(end of stream), `val (some b)` received bytes; `oserr` is a raised
`socket.error`/`OSError`; `stop` is the `StopReadWrite` that
`NetcatUDPConnection.recv` (lines 491-495) converts failures into. -/
inductive RecvRes
  | val (v : Option (List Nat))
  | oserr
  | stop
deriving Repr, DecidableEq

/-- Result of `self.stdin.read(self.plen)` (lines 352-358): a normal return
(`None`, empty bytes = EOF, or data), or the `StopReadWrite` a non-blocking
console input source may raise. -/
inductive ReadRes
  | val (v : Option (List Nat))
  | stop
deriving Repr, DecidableEq

/-- Result of `self.send(stdin_data)` (lines 364-372): success, or a raised
`socket.error` which is either a broken pipe (`EPIPE`) or some other error. -/
inductive SendRes
  | ok
  | sockErr (isEpipe : Bool)
deriving Repr, DecidableEq

/-- The observable actions one loop iteration performs, in order. -/
inductive Act
  | sleep (secs : Int)
  | writeStdout (b : List Nat)
  | shutdownRd
  | sendNet (b : List Nat)
  | shutdownWr
deriving Repr, DecidableEq

/-- The loop-carried state of `readwrite`: the `netin_eof` flag, the
`stdin_eof` first-EOF timestamp (`None` until EOF is seen) and the
`idle_time` of the last successful read or write. -/
structure RWState where
  netinEof : Bool
  stdinEof : Option Int
  idleTime : Int
deriving Repr, DecidableEq

/-- The connection options `readwrite` consults: CRLF translation `C`,
detach-from-stdin `d`, inter-iteration delay `i`, quit-after-EOF delay `q`
and idle timeout `w` (`self.timeout`). -/
structure RWOpts where
  C : Bool
  d : Bool
  i : Int
  q : Int
  w : Option Int
deriving Repr, DecidableEq

/-- What the environment did during one iteration, including the clock value
at each `time.time()` call site. -/
structure RWEnv where
  recv : RecvRes
  stdinRead : ReadRes
  sendRes : SendRes
  tNetData : Int
  tSendDone : Int
  tEofFirst : Int
  tQCheck : Int
  tWCheck : Int
deriving Repr, DecidableEq

/-- How the iteration ended: loop continues with a new state, the loop (and
with it `readwrite`) ends normally (`return` or `break`), or an exception
propagates out of `readwrite`. -/
inductive RWOut
  | cont (st : RWState)
  | done
  | raised
deriving Repr, DecidableEq

structure RWResult where
  acts : List Act
  out : RWOut
deriving Repr, DecidableEq

/-- Embeds `stdin_data.replace(b'\n', b'\r\n')` (line 363). -/
def crlfReplace : List Nat → List Nat
  | [] => []
  | c :: rest => if c = 10 then 13 :: 10 :: crlfReplace rest else c :: crlfReplace rest

/-- The idle-timeout check at lines 388-391: `if self.timeout is not None`
and at least `w` seconds have passed since `idle_time`, return. -/
def wCheck (o : RWOpts) (st : RWState) (acts : List Act) (env : RWEnv) : RWResult :=
  match o.w with
  | some wv => if env.tWCheck - st.idleTime ≥ wv then ⟨acts, .done⟩ else ⟨acts, .cont st⟩
  | none => ⟨acts, .cont st⟩

/-- One iteration of the `readwrite` loop (lines 323-394), in source order:
the `netin_eof` break, the optional sleep, the non-blocking network read and
its EOF/error handling, then — only when `d` is unset — the stdin read, the
send with CRLF translation and EPIPE handling, the stdin-EOF bookkeeping with
the `q` delay, and finally the idle-timeout check (which the source nests
inside `if not self.d`). -/
def rwStep (o : RWOpts) (st : RWState) (env : RWEnv) : RWResult :=
  if st.netinEof then ⟨[], .done⟩
  else
    let acts0 : List Act := if o.i ≠ 0 then [.sleep o.i] else []
    match env.recv with
    | .oserr => ⟨acts0, .done⟩
    | .stop => ⟨acts0, .done⟩
    | .val nd =>
      let netres : List Act × RWState :=
        match nd with
        | some b =>
          if b ≠ [] then (acts0 ++ [.writeStdout b], { st with idleTime := env.tNetData })
          else (acts0 ++ [.shutdownRd], { st with netinEof := true })
        | none => (acts0, st)
      let acts1 := netres.1
      let st1 := netres.2
      if o.d then ⟨acts1, .cont st1⟩
      else
        match env.stdinRead with
        | .stop => ⟨acts1, .done⟩
        | .val sd =>
          match sd with
          | some b =>
            if b ≠ [] then
              let b1 := if o.C then crlfReplace b else b
              match env.sendRes with
              | .sockErr isEpipe =>
                if isEpipe then ⟨acts1 ++ [.sendNet b1], .done⟩
                else ⟨acts1 ++ [.sendNet b1], .raised⟩
              | .ok =>
                wCheck o { st1 with idleTime := env.tSendDone }
                  (acts1 ++ [.sendNet b1]) env
            else
              let firstEof := st1.stdinEof.getD env.tEofFirst
              let st2 := { st1 with stdinEof := some firstEof }
              if o.q = 0 then wCheck o st2 (acts1 ++ [.shutdownWr]) env
              else if o.q > 0 then
                if env.tQCheck - firstEof ≥ o.q then ⟨acts1, .done⟩
                else wCheck o st2 acts1 env
              else wCheck o st2 acts1 env
          | none => wCheck o st1 acts1 env

/-! ## Client port iteration

Embeds `NetcatClient.iter_connections` (netcat.py lines 755-771),
`NetcatClient.next_connection` (lines 784-808), `_conn_refused` (773-782) and
`_conn_succeeded` (810-826).  The network's behaviour is an oracle: each port
attempt (`_create_connection`) either succeeds or raises one of the handled
exceptions.  Verbose messages are modelled structurally (which template is
instantiated with which values, per the `v_conn_*` format strings at lines
646-647) and are emitted only when the `v` flag is set, as in
`NetcatContext.print_verbose` (lines 140-142).  Connections/sockets are
identified by the index of the attempt that created them.
-/

/-- The client options consulted during iteration. -/
structure ClientCfg where
  dest : String
  v : Bool
  z : Bool
  n : Bool
  protoName : String
  proxyAddress : String
  proxyPort : Int
deriving Repr, DecidableEq

/-- How one `_create_connection` attempt ends: success; an active refusal
(`compat.ConnectionRefusedError`, or `socket.error` with
`errno == ECONNREFUSED`); a `socks.ProxyError` whose wrapped `socket_err` is
itself a refusal; any other `socks.ProxyError`; any other `socket.error`. -/
inductive AttemptOutcome
  | ok
  | refused
  | proxyRefused
  | proxyErr (msg : String)
  | sockErr (msg : String)
deriving Repr, DecidableEq

/-- A verbose message, by template (lines 646-647) and the values substituted
into it: `v_conn_refused` =
`'connect to {dest} port {port} ({proto_name}) failed: Connection refused'`,
`v_conn_succeeded` =
`'Connection to {dest} {port} port [{proto_name}/{proto}] succeeded!'`. -/
inductive VMsg
  | connRefused (dest : String) (port : Int) (protoName : String)
  | connSucceeded (dest : String) (port : Int) (protoName : String) (proto : String)
deriving Repr, DecidableEq

/-- Observable events of the client iteration. -/
inductive CEvent
  | msg (m : VMsg)
  | closeConn (sockId : Nat)
  | yieldConn (sockId : Nat)
deriving Repr, DecidableEq

/-- Embeds `print_verbose`: the message reaches stderr only when `v` is set. -/
def printVerbose (v : Bool) (m : VMsg) : List CEvent :=
  if v then [.msg m] else []

/-- How `next_connection` returns to `iter_connections`: with a connection,
with the internal `ConnectionRefused` signal, or with a fatal
`NetcatProxyError`/`NetcatSocketError`. -/
inductive NextRes
  | conn (sockId : Nat)
  | refusedExc
  | fatal
deriving Repr, DecidableEq

/-- Embeds the `getservbyport(port, protocol_name)` resolution used by
`_conn_succeeded`: `'*'` when suppressed by `n` or when lookup fails. -/
def resolveServ (lookup : Int → String → Option String) (n : Bool)
    (port : Int) (protoName : String) : String :=
  if n then "*"
  else
    match lookup port protoName with
    | some s => s
    | none => "*"

/-- Embeds `NetcatClient.next_connection` (lines 784-808) for the attempt on one
port: dispatch on the outcome of `_create_connection`; refusals print the
refusal message (naming the proxy's own address and port when the refusal
happened at the proxy hop) and raise the internal `ConnectionRefused`;
other proxy/socket errors become fatal wrapped errors; success prints the
success message and, in zero-I/O mode, immediately closes the connection. -/
def nextConnection (cfg : ClientCfg) (lookup : Int → String → Option String)
    (sockId : Nat) (port : Int) (out : AttemptOutcome) : List CEvent × NextRes :=
  match out with
  | .refused =>
    (printVerbose cfg.v (.connRefused cfg.dest port cfg.protoName), .refusedExc)
  | .proxyRefused =>
    (printVerbose cfg.v (.connRefused cfg.proxyAddress cfg.proxyPort cfg.protoName),
      .refusedExc)
  | .proxyErr _ => ([], .fatal)
  | .sockErr _ => ([], .fatal)
  | .ok =>
    let evs := printVerbose cfg.v
      (.connSucceeded cfg.dest port cfg.protoName
        (resolveServ lookup cfg.n port cfg.protoName))
    if cfg.z then (evs ++ [.closeConn sockId], .conn sockId)
    else (evs, .conn sockId)

/-- Result of running the whole generator: the ordered event trace and
whether a fatal error propagated to the caller. -/
structure IterRes where
  events : List CEvent
  fatal : Bool
deriving Repr, DecidableEq

/-- Embeds `NetcatClient.iter_connections` (lines 755-771) over the (pre-indexed)
list of remaining ports and their attempt outcomes: `StopIteration` ends the
loop, `ConnectionRefused` skips to the next port, a connection is yielded
unless `z` is set and is always closed by the generator's `finally` before
the next attempt.  A fatal error stops the iteration and propagates. -/
def iterConnections (cfg : ClientCfg) (lookup : Int → String → Option String) :
    List (Nat × Int × AttemptOutcome) → IterRes
  | [] => ⟨[], false⟩
  | (sockId, port, out) :: rest =>
    match nextConnection cfg lookup sockId port out with
    | (evs, .refusedExc) =>
      let r := iterConnections cfg lookup rest
      ⟨evs ++ r.events, r.fatal⟩
    | (evs, .fatal) => ⟨evs, true⟩
    | (evs, .conn sid) =>
      let r := iterConnections cfg lookup rest
      ⟨evs ++ (if ¬cfg.z then [.yieldConn sid] else []) ++ [.closeConn sid]
          ++ r.events,
        r.fatal⟩

/-- One full client run over a port/outcome list, sockets numbered by
attempt index. -/
def clientRun (cfg : ClientCfg) (lookup : Int → String → Option String)
    (attempts : List (Int × AttemptOutcome)) : IterRes :=
  iterConnections cfg lookup attempts.enum

/-- The connections the caller receives, in order. -/
def yieldedConns (evs : List CEvent) : List Nat :=
  evs.filterMap (fun e => match e with | .yieldConn i => some i | _ => none)

/-- The verbose messages of a trace, in order. -/
def verboseMsgs (evs : List CEvent) : List VMsg :=
  evs.filterMap (fun e => match e with | .msg m => some m | _ => none)

/-- A CPython socket object: `socket.close()` releases the underlying file
descriptor the first time and is a no-op afterwards. -/
structure PySocket where
  closed : Bool
  fdReleases : Nat
deriving Repr, DecidableEq

def PySocket.close (s : PySocket) : PySocket :=
  if s.closed then s else ⟨true, s.fdReleases + 1⟩

/-- Replay every `close` invocation a trace performs on socket `sid`
(`NetcatConnection.close`, line 285-286, calls `self.net.close()`). -/
def runCloses (evs : List CEvent) (sid : Nat) : PySocket :=
  evs.foldl (fun s e => if e = CEvent.closeConn sid then s.close else s) ⟨false, 0⟩

/-! ## The top-level `pync` run (netcat.py lines 1668-1789)

`exit.status` starts at 1; the `Pync*` subclasses set it to 0 in
`_conn_succeeded` (client success), `_listening` (server starts listening)
and `print_help`; the `try` around the run maps the escaping exception to the
reported output and the returned status.
-/

/-- The status-setting events the Pync subclasses hook (lines 1725-1760). -/
inductive PyncEvent
  | connSucceeded
  | listening
  | helpPrinted
deriving Repr, DecidableEq

/-- How the `with PyncNetcat.from_args(args) as nc: nc.readwrite()` block
ends: normally, with a `NetcatError`, with a `KeyboardInterrupt`, or with the
`SystemExit` an argument-parsing error or help request raises. -/
inductive PyncTerm
  | normal
  | netcatError (msg : String)
  | interrupt
  | sysExit
deriving Repr, DecidableEq

/-- Embeds `exit.status` just before the terminating exception (if any) is handled:
starts at 1, each event assigns 0. -/
def pyncEventStatus (events : List PyncEvent) : Nat :=
  events.foldl (fun _ _ => 0) 1

/-- The `pync` function (lines 1776-1789): returns the exit status and the
lines written to the error stream by its exception handlers. -/
def pyncRun (events : List PyncEvent) (term : PyncTerm) : Nat × List String :=
  match term with
  | .netcatError m => (1, ["pync: " ++ m ++ "\n"])
  | .interrupt => (130, ["\n"])
  | .sysExit => (pyncEventStatus events, [])
  | .normal => (pyncEventStatus events, [])

/-! ## `NetcatArgumentParser.parse_args` mode table (lines 1433-1486)

The grouped parse yields a general namespace (with `dest`, `port`, `p`), a
server namespace (with `l`) and a client namespace.  Only the fields the
decision table reads are modelled.  Python truthiness: `dest` is truthy iff
nonempty, `port`/`p` iff present (a stored port value is never falsy: ports
are validated to 1-65535 and chain objects are always truthy). -/

structure GeneralNs where
  dest : String
  port : Option PortValue
  p : Option Int
deriving Repr, DecidableEq

/-- The server-mode/client-mode accept-reject-reinterpret table of
`parse_args`.  `.error ()` models `print_usage(); exit()` (and, in the
reinterpretation branch, an argparse error on the re-fed port token), which
raise `SystemExit`. -/
def parseArgsDecision (l : Bool) (g : GeneralNs) : Except Unit GeneralNs :=
  if l then
    if g.dest ≠ "" ∧ g.port.isSome ∧ g.p = none then .ok g
    else if g.dest ≠ "" ∧ g.port = none ∧ g.p = none then
      -- feed dest back through the parser as the port
      match parsePortArgs [g.dest] with
      | some pv => .ok { g with dest := "", port := pv }
      | none => .error ()
    else if g.dest = "" ∧ g.port = none ∧ g.p.isSome then .ok g
    else if g.dest ≠ "" ∧ g.port = none ∧ g.p.isSome then .ok g
    else if g.dest ≠ "" ∧ g.port.isSome ∧ g.p.isSome then .ok g
    else .error ()
  else
    if g.dest ≠ "" ∧ g.port.isSome then .ok g
    else .error ()

/-- Embeds `NetcatServer.__init__` (lines 969-977): an empty bind address becomes
the wildcard all-interfaces address. -/
def serverInitDest (dest : String) : String :=
  if dest = "" then "0.0.0.0" else dest

/-! ## The `Netcat` factory (netcat.py lines 1591-1613)

`Netcat.__new__` picks one of the four concrete types from `l` and `u`; in
listen mode a given source port `p` replaces the positional `port` (both are
plain Python ints, so a port taken from `p` is the same shape as a parsed
single port). -/

inductive NetcatChoice
  | tcpClient (dest : String) (port : Option PortValue) (p : Option Int)
  | udpClient (dest : String) (port : Option PortValue) (p : Option Int)
  | tcpServer (port : Option PortValue) (dest : String)
  | udpServer (port : Option PortValue) (dest : String)
deriving Repr, DecidableEq

def netcatNew (dest : String) (port : Option PortValue) (l u : Bool)
    (p : Option Int) : NetcatChoice :=
  if l then
    let port1 : Option PortValue :=
      match p with
      | some n => some (.single n)
      | none => port
    if u then .udpServer port1 dest else .tcpServer port1 dest
  else
    if u then .udpClient dest port p else .tcpClient dest port p

/-! ## Process wrappers (process.py)

`_ProcStdout.read` (lines 195-200) reads the spawned command's non-blocking
pipe; `PythonStdoutReader.read` (lines 24-33) reads the code-execution
child's `multiprocessing` connection.  Raising `ProcessTerminated` is
modelled as `Except.error`. -/

/-- The non-blocking pipe of `NonBlockingProcess` plus the process status
`self._proc.poll() is not None`. -/
structure ProcPipe where
  buf : List Nat
  exited : Bool
deriving Repr, DecidableEq

/-- Embeds `_ProcStdout.read(n)`: read up to `n` buffered bytes (a non-blocking read
returns empty when nothing is buffered); return them if nonempty; otherwise
raise `ProcessTerminated` when the process has exited, else return `None`
implicitly. -/
def procStdoutRead (p : ProcPipe) (n : Nat) :
    Except Unit (Option (List Nat) × ProcPipe) :=
  let data := p.buf.take n
  if data ≠ [] then .ok (some data, { p with buf := p.buf.drop n })
  else if p.exited then .error ()
  else .ok (none, p)

/-- The parent's end of a `multiprocessing.Pipe`: the queued messages and
whether the other end is closed (`poll()` is true when a message is queued or
end-of-file is readable; `recv_bytes` on a closed empty pipe raises
`EOFError`). -/
structure PyConn where
  msgs : List (List Nat)
  closed : Bool
deriving Repr, DecidableEq

def pyPoll (c : PyConn) : Bool := ¬c.msgs.isEmpty || c.closed

/-- Embeds `PythonStdoutReader.read`: if `poll()`, try `recv_bytes` (an `EOFError`
is swallowed) and return the message; otherwise fall through to the liveness
check and raise `ProcessTerminated` iff the child is no longer alive. -/
def pythonStdoutRead (alive : Bool) (c : PyConn) :
    Except Unit (Option (List Nat) × PyConn) :=
  if pyPoll c then
    match c.msgs with
    | m :: rest => .ok (some m, { c with msgs := rest })
    | [] => if ¬alive then .error () else .ok (none, c)
  else if ¬alive then .error () else .ok (none, c)

/-! ## Theorems -/

/-- C10: in `Netcat.__new__`, whenever listen mode `l` is true and a source
port `p` is supplied, the server is constructed with `p` as its bind port and
the positional `port` value is discarded (so with `dest`, `port` and `p` all
given, `p` takes precedence over the positional port). -/
theorem c10_listen_source_port_precedence
    (dest : String) (port : Option PortValue) (u : Bool) (pN : Int) :
    netcatNew dest port true u (some pN) =
      (if u then .udpServer (some (.single pN)) dest
       else .tcpServer (some (.single pN)) dest) ∧
    ∀ port2, netcatNew dest port true u (some pN) =
      netcatNew dest port2 true u (some pN) := by
  constructor
  · cases u <;> simp [netcatNew]
  · intro port2
    cases u <;> simp [netcatNew]

/-- C2 names a claim the code violates: the idle-timeout check of
`readwrite` sits inside `if not self.d`, so with detach-input `d` set the
relay does not end when `w` seconds have passed with no successful read or
write, while the identical situation with `d` unset does end it.  Here the
connection has `w` = 2, nothing was received, and the clock at the (would-be)
timeout check is 9 seconds past the last activity. -/
theorem c2_idle_timeout_dead_when_detached :
    rwStep ⟨false, true, 0, 0, some 2⟩ ⟨false, none, 0⟩
        ⟨.val none, .val none, .ok, 9, 9, 9, 9, 9⟩ =
      ⟨[], .cont ⟨false, none, 0⟩⟩ ∧
    rwStep ⟨false, false, 0, 0, some 2⟩ ⟨false, none, 0⟩
        ⟨.val none, .val none, .ok, 9, 9, 9, 9, 9⟩ =
      ⟨[], .done⟩ := by
  constructor <;> decide

/-- Folding the constant-0 assignment over a nonempty event list gives 0. -/
theorem pyncEventStatus_eq (events : List PyncEvent) :
    pyncEventStatus events = if events.isEmpty then 1 else 0 := by
  have aux : ∀ (l : List PyncEvent), l.foldl (fun _ _ => 0) 0 = 0 := by
    intro l; induction l with
    | nil => rfl
    | cons a t ih => simpa using ih
  cases events with
  | nil => rfl
  | cons a t => simpa [pyncEventStatus] using aux t

/-- C6: the top-level `pync` run always returns an integer status: it starts
at 1 and becomes 0 the moment a client connection succeeds, a server starts
listening, or help is printed; a `NetcatError` is reported as
"pync: `<message>`" and the run returns 1; a `KeyboardInterrupt` is reported
as a blank line and returns 130; a parser `SystemExit` returns the status
established up to that point (0 for the help path). -/
theorem c6_exit_status (events : List PyncEvent) (m : String) :
    pyncEventStatus [] = 1 ∧
    (events ≠ [] → pyncEventStatus events = 0) ∧
    pyncRun events (.netcatError m) = (1, ["pync: " ++ m ++ "\n"]) ∧
    pyncRun events .interrupt = (130, ["\n"]) ∧
    pyncRun events .sysExit = (pyncEventStatus events, []) ∧
    (.helpPrinted ∈ events → (pyncRun events .sysExit).1 = 0) ∧
    pyncRun events .normal = (pyncEventStatus events, []) := by
  refine ⟨rfl, ?_, rfl, rfl, rfl, ?_, rfl⟩
  · intro h
    rw [pyncEventStatus_eq]
    simp [h]
  · intro h
    have h2 : events ≠ [] := by rintro rfl; simp at h
    simp [pyncRun, pyncEventStatus_eq, h2]

/-- C6 witness: a help-printed run that then exits via `SystemExit` returns
status 0; a `NetcatError` run reports "pync: boom" and returns 1. -/
theorem c6_exit_status_witness :
    (pyncRun [PyncEvent.helpPrinted] .sysExit).1 = 0 ∧
    pyncRun [] (.netcatError "boom") = (1, ["pync: boom\n"]) := by
  have h := c6_exit_status [PyncEvent.helpPrinted] "boom"
  refine ⟨h.2.2.2.2.2.1 (by decide), ?_⟩
  exact (c6_exit_status [] "boom").2.2.1

/-- C9: for both process wrappers, a read returns available bytes while any
remain buffered, and signals process termination exactly when the backing
process has exited and nothing more is buffered. -/
theorem c9_process_reader_termination (p : ProcPipe) (n : Nat) (alive : Bool)
    (c : PyConn) :
    (0 < n → (procStdoutRead p n = .error () ↔ p.buf = [] ∧ p.exited = true)) ∧
    (0 < n → p.buf ≠ [] →
      procStdoutRead p n = .ok (some (p.buf.take n), { p with buf := p.buf.drop n })) ∧
    (pythonStdoutRead alive c = .error () ↔ c.msgs = [] ∧ alive = false) ∧
    (∀ m rest, c.msgs = m :: rest →
      pythonStdoutRead alive c = .ok (some m, { c with msgs := rest })) := by
  refine ⟨?_, ?_, ?_, ?_⟩
  · intro hn
    unfold procStdoutRead
    rcases hbuf : p.buf with _ | ⟨b, bs⟩
    · simp only [List.take_nil, ne_eq, not_true_eq_false, if_false, reduceIte]
      cases hex : p.exited <;> simp
    · have hne : (b :: bs).take n ≠ [] := by
        cases n with
        | zero => omega
        | succ k => simp
      simp [hne]
  · intro hn hbuf
    have : p.buf.take n ≠ [] := by
      rcases hb : p.buf with _ | ⟨b, bs⟩
      · exact absurd hb hbuf
      · cases n with
        | zero => omega
        | succ k => simp [hb]
    simp [procStdoutRead, this]
  · unfold pythonStdoutRead pyPoll
    rcases hm : c.msgs with _ | ⟨m, ms⟩ <;> cases hcl : c.closed <;>
      cases alive <;> simp
  · intro m rest hm
    simp [pythonStdoutRead, pyPoll, hm]

/-- C9 witness: a drained pipe of an exited command signals termination; a
buffered byte is returned first; the code-execution reader behaves alike. -/
theorem c9_process_reader_termination_witness :
    procStdoutRead ⟨[], true⟩ 2048 = .error () ∧
    procStdoutRead ⟨[7], true⟩ 2048 = .ok (some [7], ⟨[], true⟩) ∧
    pythonStdoutRead false ⟨[], false⟩ = .error () ∧
    pythonStdoutRead true ⟨[[7]], false⟩ = .ok (some [7], ⟨[], false⟩) := by
  have h1 := c9_process_reader_termination ⟨[], true⟩ 2048 false ⟨[], false⟩
  have h2 := c9_process_reader_termination ⟨[7], true⟩ 2048 true ⟨[[7]], false⟩
  refine ⟨(h1.1 (by decide)).2 ⟨rfl, rfl⟩, ?_, (h1.2.2.1).2 ⟨rfl, rfl⟩, ?_⟩
  · simpa using h2.2.1 (by decide) (by decide)
  · simpa using h2.2.2.2 [7] [] rfl

/-- C3: in an iteration where the local input stream reports end-of-stream
(and the network side stays quiet), the time of first EOF is recorded once;
with `q` = 0 the write half of the socket is shut down and the relay
continues; with `q` > 0 the relay ends exactly once at least `q` seconds have
passed since the first EOF (the side conditions keep the independent idle
timeout from also firing). -/
theorem c3_stdin_eof_quit_delay (o : RWOpts) (st : RWState) (env : RWEnv)
    (hne : st.netinEof = false) (hd : o.d = false) (hi : o.i = 0)
    (hr : env.recv = .val none) (hs : env.stdinRead = .val (some [])) :
    (∀ st2, (rwStep o st env).out = .cont st2 →
      st2.stdinEof = some (st.stdinEof.getD env.tEofFirst)) ∧
    (o.q = 0 →
      (o.w = none ∨ ∃ wv, o.w = some wv ∧ env.tWCheck - st.idleTime < wv) →
      rwStep o st env =
        ⟨[.shutdownWr], .cont { st with stdinEof := some (st.stdinEof.getD env.tEofFirst) }⟩) ∧
    (0 < o.q → o.q ≤ env.tQCheck - st.stdinEof.getD env.tEofFirst →
      rwStep o st env = ⟨[], .done⟩) ∧
    (0 < o.q → env.tQCheck - st.stdinEof.getD env.tEofFirst < o.q →
      (o.w = none ∨ ∃ wv, o.w = some wv ∧ env.tWCheck - st.idleTime < wv) →
      rwStep o st env =
        ⟨[], .cont { st with stdinEof := some (st.stdinEof.getD env.tEofFirst) }⟩) := by
  have hstep : rwStep o st env =
      (if o.q = 0 then
        wCheck o { st with stdinEof := some (st.stdinEof.getD env.tEofFirst) }
          [.shutdownWr] env
      else if o.q > 0 then
        if env.tQCheck - st.stdinEof.getD env.tEofFirst ≥ o.q then ⟨[], .done⟩
        else wCheck o { st with stdinEof := some (st.stdinEof.getD env.tEofFirst) } [] env
      else wCheck o { st with stdinEof := some (st.stdinEof.getD env.tEofFirst) } [] env) := by
    simp [rwStep, hne, hd, hi, hr, hs]
  refine ⟨?_, ?_, ?_, ?_⟩
  · intro st2 hcont
    rw [hstep] at hcont
    by_cases hq0 : o.q = 0
    · simp only [hq0, if_true] at hcont
      unfold wCheck at hcont
      rcases hw : o.w with _ | wv <;> rw [hw] at hcont <;> simp at hcont
      · exact hcont.symm ▸ rfl
      · split at hcont <;> simp at hcont
        exact hcont.symm ▸ rfl
    · simp only [hq0, if_false] at hcont
      by_cases hqpos : o.q > 0
      · simp only [hqpos, if_true] at hcont
        split at hcont
        · simp at hcont
        · unfold wCheck at hcont
          rcases hw : o.w with _ | wv <;> rw [hw] at hcont <;> simp at hcont
          · exact hcont.symm ▸ rfl
          · split at hcont <;> simp at hcont
            exact hcont.symm ▸ rfl
      · simp only [hqpos, if_false] at hcont
        unfold wCheck at hcont
        rcases hw : o.w with _ | wv <;> rw [hw] at hcont <;> simp at hcont
        · exact hcont.symm ▸ rfl
        · split at hcont <;> simp at hcont
          exact hcont.symm ▸ rfl
  · intro hq0 hwside
    rw [hstep]
    simp only [hq0, if_true]
    unfold wCheck
    rcases hwside with hw | ⟨wv, hw, hlt⟩
    · simp [hw]
    · simp only [hw]
      have : ¬(env.tWCheck - st.idleTime ≥ wv) := by omega
      simp [this]
  · intro hqpos hqel
    rw [hstep]
    have hq0 : ¬(o.q = 0) := by omega
    simp [hq0, hqpos, ge_iff_le, hqel]
  · intro hqpos hqel hwside
    rw [hstep]
    have hq0 : ¬(o.q = 0) := by omega
    have : ¬(env.tQCheck - st.stdinEof.getD env.tEofFirst ≥ o.q) := by omega
    simp only [hq0, if_false, hqpos, if_true, this]
    unfold wCheck
    rcases hwside with hw | ⟨wv, hw, hlt⟩
    · simp [hw]
    · simp only [hw]
      have h2 : ¬(env.tWCheck - st.idleTime ≥ wv) := by omega
      simp [h2]

/-- C3 witness: a connection with `q` = 0 and no idle timeout, at first stdin
EOF (time 3): the write half is shut down and the loop continues with the EOF
time recorded; with `q` = 5 and the EOF recorded at time 0, the check at time
7 ends the relay. -/
theorem c3_stdin_eof_quit_delay_witness :
    rwStep ⟨false, false, 0, 0, none⟩ ⟨false, none, 0⟩
        ⟨.val none, .val (some []), .ok, 3, 3, 3, 3, 3⟩ =
      ⟨[.shutdownWr], .cont ⟨false, some 3, 0⟩⟩ ∧
    rwStep ⟨false, false, 0, 5, none⟩ ⟨false, some 0, 0⟩
        ⟨.val none, .val (some []), .ok, 7, 7, 7, 7, 7⟩ =
      ⟨[], .done⟩ := by
  constructor
  · exact (c3_stdin_eof_quit_delay ⟨false, false, 0, 0, none⟩ ⟨false, none, 0⟩
      ⟨.val none, .val (some []), .ok, 3, 3, 3, 3, 3⟩
      rfl rfl rfl rfl rfl).2.1 rfl (Or.inl rfl)
  · exact (c3_stdin_eof_quit_delay ⟨false, false, 0, 5, none⟩ ⟨false, some 0, 0⟩
      ⟨.val none, .val (some []), .ok, 7, 7, 7, 7, 7⟩
      rfl rfl rfl rfl rfl).2.2.1 (by decide) (by decide)

/-- C7: in server mode with a dest value but no positional port and no `-p`,
`parse_args` reinterprets the dest value as the port through the same port
grammar and clears dest to empty (an invalid token is a usage exit), so a
server built from "-l 8000" binds the wildcard all-interfaces address on
port 8000. -/
theorem c7_server_dest_reinterpreted :
    (∀ (s : String) (pv : Option PortValue), s ≠ "" → parsePortArgs [s] = some pv →
      parseArgsDecision true ⟨s, none, none⟩ = .ok ⟨"", pv, none⟩) ∧
    (∀ s : String, s ≠ "" → parsePortArgs [s] = none →
      parseArgsDecision true ⟨s, none, none⟩ = .error ()) ∧
    parseArgsDecision true ⟨"8000", none, none⟩ =
      .ok ⟨"", some (.single 8000), none⟩ ∧
    serverInitDest "" = "0.0.0.0" := by
  refine ⟨?_, ?_, ?_, rfl⟩
  · intro s pv hs hparse
    simp [parseArgsDecision, hs, hparse]
  · intro s hs hparse
    simp [parseArgsDecision, hs, hparse]
  · have h8 : parsePortArgs ["8000"] = some (some (.single 8000)) := by decide
    simp [parseArgsDecision, h8]

/-- C7 witness: "-l 8000" concretely: dest "8000" becomes the parsed port
8000 with dest cleared, and the cleared dest binds the wildcard address. -/
theorem c7_server_dest_reinterpreted_witness :
    parseArgsDecision true ⟨"8000", none, none⟩ =
      .ok ⟨"", some (.single 8000), none⟩ ∧
    serverInitDest "" = "0.0.0.0" :=
  ⟨c7_server_dest_reinterpreted.1 "8000" (some (.single 8000)) (by decide) (by decide),
    c7_server_dest_reinterpreted.2.2.2⟩

/-! ### Helper lemmas about client iteration traces -/

theorem yieldedConns_append (a b : List CEvent) :
    yieldedConns (a ++ b) = yieldedConns a ++ yieldedConns b := by
  simp [yieldedConns, List.filterMap_append]

theorem verboseMsgs_append (a b : List CEvent) :
    verboseMsgs (a ++ b) = verboseMsgs a ++ verboseMsgs b := by
  simp [verboseMsgs, List.filterMap_append]

theorem yieldedConns_printVerbose (v : Bool) (m : VMsg) :
    yieldedConns (printVerbose v m) = [] := by
  cases v <;> simp [printVerbose, yieldedConns]

theorem yieldedConns_cons_yield (i : Nat) (t : List CEvent) :
    yieldedConns (CEvent.yieldConn i :: t) = i :: yieldedConns t := by
  simp [yieldedConns]

theorem yieldedConns_cons_close (i : Nat) (t : List CEvent) :
    yieldedConns (CEvent.closeConn i :: t) = yieldedConns t := by
  simp [yieldedConns]

theorem yieldedConns_cons_msg (m : VMsg) (t : List CEvent) :
    yieldedConns (CEvent.msg m :: t) = yieldedConns t := by
  simp [yieldedConns]

theorem verboseMsgs_cons_yield (i : Nat) (t : List CEvent) :
    verboseMsgs (CEvent.yieldConn i :: t) = verboseMsgs t := by
  simp [verboseMsgs]

theorem verboseMsgs_cons_close (i : Nat) (t : List CEvent) :
    verboseMsgs (CEvent.closeConn i :: t) = verboseMsgs t := by
  simp [verboseMsgs]

theorem verboseMsgs_cons_msg (m : VMsg) (t : List CEvent) :
    verboseMsgs (CEvent.msg m :: t) = m :: verboseMsgs t := by
  simp [verboseMsgs]

theorem verboseMsgs_printVerbose (v : Bool) (m : VMsg) :
    verboseMsgs (printVerbose v m) = if v then [m] else [] := by
  cases v <;> simp [printVerbose, verboseMsgs]

/-- No fatal `NetcatProxyError`/`NetcatSocketError` escapes the iteration
when every attempt succeeds or is (locally or at the proxy hop) refused. -/
theorem iter_fatal_false (cfg : ClientCfg) (lookup : Int → String → Option String)
    (atts : List (Nat × Int × AttemptOutcome))
    (h : ∀ a ∈ atts, a.2.2 = .ok ∨ a.2.2 = .refused ∨ a.2.2 = .proxyRefused) :
    (iterConnections cfg lookup atts).fatal = false := by
  induction atts with
  | nil => rfl
  | cons a rest ih =>
    obtain ⟨sid, port, out⟩ := a
    have hrest := fun x hx => h x (List.mem_cons_of_mem _ hx)
    rcases h _ (List.mem_cons_self _ _) with h1 | h1 | h1 <;>
      simp only at h1 <;> subst h1
    · cases hz : cfg.z <;>
        simp [iterConnections, nextConnection, hz, ih hrest]
    · simp [iterConnections, nextConnection, ih hrest]
    · simp [iterConnections, nextConnection, ih hrest]

/-- With `z` unset and no fatal outcome, the caller receives exactly the
connections of the accepting ports, in order. -/
theorem iter_yields (cfg : ClientCfg) (lookup : Int → String → Option String)
    (atts : List (Nat × Int × AttemptOutcome)) (hz : cfg.z = false)
    (h : ∀ a ∈ atts, a.2.2 = .ok ∨ a.2.2 = .refused ∨ a.2.2 = .proxyRefused) :
    yieldedConns (iterConnections cfg lookup atts).events =
      (atts.filter (fun a => a.2.2 = .ok)).map (fun a => a.1) := by
  induction atts with
  | nil => rfl
  | cons a rest ih =>
    obtain ⟨sid, port, out⟩ := a
    have hrest := fun x hx => h x (List.mem_cons_of_mem _ hx)
    rcases h _ (List.mem_cons_self _ _) with h1 | h1 | h1 <;>
      simp only at h1 <;> subst h1
    · simp [iterConnections, nextConnection, hz, yieldedConns_append,
        yieldedConns_printVerbose, yieldedConns_cons_yield,
        yieldedConns_cons_close, ih hrest]
    · simp [iterConnections, nextConnection, yieldedConns_append,
        yieldedConns_printVerbose, ih hrest]
    · simp [iterConnections, nextConnection, yieldedConns_append,
        yieldedConns_printVerbose, ih hrest]

/-- With verbosity on and no fatal outcome, every refused attempt leaves its
refusal message in the trace: naming the client's dest and the refused port
for a local refusal, and the proxy's own address and port for a refusal at
the proxy hop. -/
theorem iter_refused_msgs (cfg : ClientCfg) (lookup : Int → String → Option String)
    (atts : List (Nat × Int × AttemptOutcome)) (hv : cfg.v = true)
    (h : ∀ a ∈ atts, a.2.2 = .ok ∨ a.2.2 = .refused ∨ a.2.2 = .proxyRefused) :
    ∀ a ∈ atts,
      (a.2.2 = .refused →
        CEvent.msg (.connRefused cfg.dest a.2.1 cfg.protoName) ∈
          (iterConnections cfg lookup atts).events) ∧
      (a.2.2 = .proxyRefused →
        CEvent.msg (.connRefused cfg.proxyAddress cfg.proxyPort cfg.protoName) ∈
          (iterConnections cfg lookup atts).events) := by
  induction atts with
  | nil => intro a ha; cases ha
  | cons hd rest ih =>
    obtain ⟨sid, port, out⟩ := hd
    have hrest := fun x hx => h x (List.mem_cons_of_mem _ hx)
    intro a ha
    have tailmem : a ∈ rest →
        (a.2.2 = .refused →
          CEvent.msg (.connRefused cfg.dest a.2.1 cfg.protoName) ∈
            (iterConnections cfg lookup rest).events) ∧
        (a.2.2 = .proxyRefused →
          CEvent.msg (.connRefused cfg.proxyAddress cfg.proxyPort cfg.protoName) ∈
            (iterConnections cfg lookup rest).events) :=
      fun hx => ih hrest a hx
    rcases List.mem_cons.mp ha with rfl | hmem
    · -- the attempt itself is the head
      constructor
      · intro hout
        rcases h _ (List.mem_cons_self _ _) with h1 | h1 | h1 <;>
          simp only at h1 <;> rw [h1] at hout <;> try cases hout
        rw [h1]
        simp [iterConnections, nextConnection, printVerbose, hv]
      · intro hout
        rcases h _ (List.mem_cons_self _ _) with h1 | h1 | h1 <;>
          simp only at h1 <;> rw [h1] at hout <;> try cases hout
        rw [h1]
        simp [iterConnections, nextConnection, printVerbose, hv]
    · -- the attempt is in the tail; its message survives the head's events
      have hm := tailmem hmem
      rcases h _ (List.mem_cons_self _ _) with h1 | h1 | h1 <;>
        simp only at h1 <;> subst h1
      · constructor
        · intro hout
          cases hz : cfg.z <;>
            simp [iterConnections, nextConnection, hz, hm.1 hout]
        · intro hout
          cases hz : cfg.z <;>
            simp [iterConnections, nextConnection, hz, hm.2 hout]
      · exact ⟨fun hout => by simp [iterConnections, nextConnection, hm.1 hout],
          fun hout => by simp [iterConnections, nextConnection, hm.2 hout]⟩
      · exact ⟨fun hout => by simp [iterConnections, nextConnection, hm.1 hout],
          fun hout => by simp [iterConnections, nextConnection, hm.2 hout]⟩

/-- The verbose messages of a client run do not depend on the zero-I/O flag:
`z` only suppresses yielding and adds an extra close. -/
theorem iter_msgs_z_independent (cfg : ClientCfg)
    (lookup : Int → String → Option String)
    (atts : List (Nat × Int × AttemptOutcome)) (z1 z2 : Bool) :
    verboseMsgs (iterConnections { cfg with z := z1 } lookup atts).events =
      verboseMsgs (iterConnections { cfg with z := z2 } lookup atts).events := by
  induction atts with
  | nil => rfl
  | cons a rest ih =>
    obtain ⟨sid, port, out⟩ := a
    cases out <;>
      cases z1 <;> cases z2 <;>
        simp [iterConnections, nextConnection, verboseMsgs_append,
          verboseMsgs_cons_yield, verboseMsgs_cons_close, ih]

/-- With no fatal outcome, every connection the iteration creates is closed
by the time the iteration is past it (the generator's `finally`, or the
zero-I/O close inside `next_connection`). -/
theorem iter_ok_closed (cfg : ClientCfg) (lookup : Int → String → Option String)
    (atts : List (Nat × Int × AttemptOutcome))
    (h : ∀ a ∈ atts, a.2.2 = .ok ∨ a.2.2 = .refused ∨ a.2.2 = .proxyRefused) :
    ∀ a ∈ atts, a.2.2 = .ok →
      CEvent.closeConn a.1 ∈ (iterConnections cfg lookup atts).events := by
  induction atts with
  | nil => intro a ha; cases ha
  | cons hd rest ih =>
    obtain ⟨sid, port, out⟩ := hd
    have hrest := fun x hx => h x (List.mem_cons_of_mem _ hx)
    intro a ha hok
    rcases List.mem_cons.mp ha with rfl | hmem
    · simp only at hok; subst hok
      cases hz : cfg.z <;>
        simp [iterConnections, nextConnection, hz]
    · have htail := ih hrest a hmem hok
      rcases h _ (List.mem_cons_self _ _) with h1 | h1 | h1 <;>
        simp only at h1 <;> subst h1
      · cases hz : cfg.z <;>
          simp [iterConnections, nextConnection, hz, htail]
      · simp [iterConnections, nextConnection, htail]
      · simp [iterConnections, nextConnection, htail]

/-- A closed CPython socket stays closed and keeps its release count. -/
theorem runCloses_closed_fixed (evs : List CEvent) (sid : Nat) (k : Nat) :
    evs.foldl
        (fun (s : PySocket) e => if e = CEvent.closeConn sid then s.close else s)
        ⟨true, k⟩ = (⟨true, k⟩ : PySocket) := by
  induction evs with
  | nil => rfl
  | cons e t ih =>
    simp only [List.foldl_cons]
    have hstep : (if e = CEvent.closeConn sid
        then PySocket.close ⟨true, k⟩ else (⟨true, k⟩ : PySocket)) =
        (⟨true, k⟩ : PySocket) := by
      by_cases he : e = CEvent.closeConn sid <;> simp [he, PySocket.close]
    rw [hstep]
    exact ih

/-- However many times a trace invokes `close` on socket `sid`, the
underlying descriptor is released at most once — and exactly once as soon as
the trace closes it at all. -/
theorem runCloses_releases_once (evs : List CEvent) (sid : Nat)
    (h : CEvent.closeConn sid ∈ evs) :
    (runCloses evs sid).fdReleases = 1 := by
  induction evs with
  | nil => cases h
  | cons e t ih =>
    by_cases he : e = CEvent.closeConn sid
    · subst he
      have hfirst : runCloses (CEvent.closeConn sid :: t) sid =
          t.foldl
            (fun (s : PySocket) e => if e = CEvent.closeConn sid then s.close else s)
            ⟨true, 1⟩ := by
        simp [runCloses, PySocket.close]
      rw [hfirst, runCloses_closed_fixed]
    · rcases List.mem_cons.mp h with h1 | h1
      · exact absurd h1.symm he
      · simpa [runCloses, he] using ih h1

/-- Membership in `List.enum` projects to membership in the list. -/
theorem mem_of_mem_enumFrom {α : Type} :
    ∀ (l : List α) (n : Nat) (p : Nat × α), p ∈ l.enumFrom n → p.2 ∈ l := by
  intro l
  induction l with
  | nil => intro n p hp; cases hp
  | cons a t ih =>
    intro n p hp
    rcases List.mem_cons.mp hp with rfl | hp2
    · exact List.mem_cons_self _ _
    · exact List.mem_cons_of_mem _ (ih (n + 1) p hp2)

theorem mem_of_mem_enum {α : Type} (l : List α) (p : Nat × α)
    (hp : p ∈ l.enum) : p.2 ∈ l :=
  mem_of_mem_enumFrom l 0 p (by simpa [List.enum] using hp)

theorem yieldedConns_nil : yieldedConns [] = [] := rfl

theorem verboseMsgs_nil : verboseMsgs [] = [] := rfl

/-- In zero-I/O mode no connection is ever yielded, whatever the outcomes. -/
theorem iter_yields_z_true (cfg : ClientCfg) (lookup : Int → String → Option String)
    (atts : List (Nat × Int × AttemptOutcome)) (hz : cfg.z = true) :
    yieldedConns (iterConnections cfg lookup atts).events = [] := by
  induction atts with
  | nil => rfl
  | cons a rest ih =>
    obtain ⟨sid, port, out⟩ := a
    cases out <;>
      simp [iterConnections, nextConnection, hz, yieldedConns_append,
        yieldedConns_printVerbose, yieldedConns_cons_close,
        yieldedConns_cons_msg, yieldedConns_nil, ih]

/-- C4: a client iterating over its ports recovers from every active refusal
— locally detected or a proxy error wrapping a refusal at the proxy hop —
by printing the verbose refusal message (naming the proxy's own address and
port for a proxy-hop refusal) and moving to the next port; no fatal error
reaches the caller, and each accepting port is yielded as exactly one open
connection. -/
theorem c4_refused_port_skipped (cfg : ClientCfg)
    (lookup : Int → String → Option String)
    (attempts : List (Int × AttemptOutcome))
    (hv : cfg.v = true) (hz : cfg.z = false)
    (h : ∀ a ∈ attempts, a.2 = .ok ∨ a.2 = .refused ∨ a.2 = .proxyRefused) :
    (clientRun cfg lookup attempts).fatal = false ∧
    yieldedConns (clientRun cfg lookup attempts).events =
      (attempts.enum.filter (fun a => a.2.2 = .ok)).map (fun a => a.1) ∧
    ∀ a ∈ attempts.enum,
      (a.2.2 = .refused →
        CEvent.msg (.connRefused cfg.dest a.2.1 cfg.protoName) ∈
          (clientRun cfg lookup attempts).events) ∧
      (a.2.2 = .proxyRefused →
        CEvent.msg (.connRefused cfg.proxyAddress cfg.proxyPort cfg.protoName) ∈
          (clientRun cfg lookup attempts).events) := by
  have he : ∀ a ∈ attempts.enum,
      a.2.2 = .ok ∨ a.2.2 = .refused ∨ a.2.2 = .proxyRefused :=
    fun a ha => h a.2 (mem_of_mem_enum attempts a ha)
  exact ⟨iter_fatal_false cfg lookup attempts.enum he,
    iter_yields cfg lookup attempts.enum hz he,
    iter_refused_msgs cfg lookup attempts.enum hv he⟩

/-- C4 witness: verbose non-zero-I/O client, port 8000 refused, port 8001
accepting: no fatal error, exactly the one connection for 8001 yielded, and
the refusal message names 8000. -/
theorem c4_refused_port_skipped_witness :
    (clientRun ⟨"localhost", true, false, true, "tcp", "pr", 1080⟩
        (fun _ _ => none) [(8000, .refused), (8001, .ok)]).fatal = false ∧
    yieldedConns (clientRun ⟨"localhost", true, false, true, "tcp", "pr", 1080⟩
        (fun _ _ => none) [(8000, .refused), (8001, .ok)]).events = [1] ∧
    CEvent.msg (.connRefused "localhost" 8000 "tcp") ∈
      (clientRun ⟨"localhost", true, false, true, "tcp", "pr", 1080⟩
        (fun _ _ => none) [(8000, .refused), (8001, .ok)]).events := by
  have h := c4_refused_port_skipped
    ⟨"localhost", true, false, true, "tcp", "pr", 1080⟩ (fun _ _ => none)
    [(8000, .refused), (8001, .ok)] rfl rfl (by decide)
  refine ⟨h.1, ?_, (h.2.2 (0, 8000, .refused) (by decide)).1 rfl⟩
  rw [h.2.1]
  decide

/-- C5: a zero-I/O client closes every successful connection inside
`next_connection` and never yields it, while the verbose reporting is
exactly that of normal mode. -/
theorem c5_zero_io (cfg : ClientCfg) (lookup : Int → String → Option String)
    (attempts : List (Int × AttemptOutcome)) (hz : cfg.z = true)
    (h : ∀ a ∈ attempts, a.2 = .ok ∨ a.2 = .refused ∨ a.2 = .proxyRefused) :
    yieldedConns (clientRun cfg lookup attempts).events = [] ∧
    verboseMsgs (clientRun cfg lookup attempts).events =
      verboseMsgs (clientRun { cfg with z := false } lookup attempts).events ∧
    ∀ a ∈ attempts.enum, a.2.2 = .ok →
      CEvent.closeConn a.1 ∈ (clientRun cfg lookup attempts).events := by
  have he : ∀ a ∈ attempts.enum,
      a.2.2 = .ok ∨ a.2.2 = .refused ∨ a.2.2 = .proxyRefused :=
    fun a ha => h a.2 (mem_of_mem_enum attempts a ha)
  have hcfg : { cfg with z := true } = cfg := by
    cases cfg; simp_all
  refine ⟨iter_yields_z_true cfg lookup attempts.enum hz, ?_,
    iter_ok_closed cfg lookup attempts.enum he⟩
  have hmsgs := iter_msgs_z_independent cfg lookup attempts.enum true false
  rw [hcfg] at hmsgs
  exact hmsgs

/-- C5 witness: a zero-I/O client against one open port yields nothing,
closes the connection, and reports exactly as normal mode would. -/
theorem c5_zero_io_witness :
    yieldedConns (clientRun ⟨"localhost", true, true, true, "tcp", "pr", 1080⟩
        (fun _ _ => none) [(8000, .ok)]).events = [] ∧
    verboseMsgs (clientRun ⟨"localhost", true, true, true, "tcp", "pr", 1080⟩
        (fun _ _ => none) [(8000, .ok)]).events =
      verboseMsgs (clientRun ⟨"localhost", true, false, true, "tcp", "pr", 1080⟩
        (fun _ _ => none) [(8000, .ok)]).events ∧
    CEvent.closeConn 0 ∈
      (clientRun ⟨"localhost", true, true, true, "tcp", "pr", 1080⟩
        (fun _ _ => none) [(8000, .ok)]).events := by
  have h := c5_zero_io ⟨"localhost", true, true, true, "tcp", "pr", 1080⟩
    (fun _ _ => none) [(8000, .ok)] rfl (by decide)
  exact ⟨h.1, h.2.1, h.2.2 (0, 8000, .ok) (by decide) rfl⟩

/-- C8: every Connection wraps the single socket created by its attempt, and
closing it releases that socket exactly once — also in zero-I/O mode, where
`next_connection` closes the connection and the generator's `finally` closes
it again (the second `socket.close()` is a no-op on the already-closed
socket), since `cfg` here is arbitrary, covering both `z` settings. -/
theorem c8_socket_released_exactly_once (cfg : ClientCfg)
    (lookup : Int → String → Option String)
    (attempts : List (Int × AttemptOutcome))
    (h : ∀ a ∈ attempts, a.2 = .ok ∨ a.2 = .refused ∨ a.2 = .proxyRefused) :
    ∀ a ∈ attempts.enum, a.2.2 = .ok →
      (runCloses (clientRun cfg lookup attempts).events a.1).fdReleases = 1 := by
  have he : ∀ a ∈ attempts.enum,
      a.2.2 = .ok ∨ a.2.2 = .refused ∨ a.2.2 = .proxyRefused :=
    fun a ha => h a.2 (mem_of_mem_enum attempts a ha)
  intro a ha hok
  exact runCloses_releases_once _ _
    (iter_ok_closed cfg lookup attempts.enum he a ha hok)

/-- C8 witness: in zero-I/O mode (where `close` is invoked twice on the same
connection) the successful attempt's socket is released exactly once. -/
theorem c8_socket_released_exactly_once_witness :
    (runCloses (clientRun ⟨"localhost", true, true, true, "tcp", "pr", 1080⟩
        (fun _ _ => none) [(8000, .ok)]).events 0).fdReleases = 1 :=
  c8_socket_released_exactly_once
    ⟨"localhost", true, true, true, "tcp", "pr", 1080⟩ (fun _ _ => none)
    [(8000, .ok)] (by decide) (0, 8000, .ok) (by decide) rfl

/-! ### Helper lemmas for the port-token grammar -/

theorem digitVal_isSome {c : Char} {d : Nat} (h : digitVal c = some d) :
    c.isDigit = true := by
  unfold digitVal at h
  by_cases hc : c.isDigit
  · exact hc
  · simp [hc] at h

theorem isDigit_ne_dash {c : Char} (h : c.isDigit = true) : c ≠ '-' := by
  intro he
  subst he
  exact absurd h (by decide)

theorem digitsVal_all_digits :
    ∀ (l : List Char) (n : Nat), digitsVal l = some n →
      ∀ c ∈ l, c.isDigit = true := by
  intro l
  induction l with
  | nil => intro n h c hc; cases hc
  | cons a t ih =>
    intro n h c hc
    cases t with
    | nil =>
      rcases List.mem_singleton.mp hc with rfl
      exact digitVal_isSome h
    | cons b t2 =>
      have hunf : digitsVal (a :: b :: t2) =
          match digitVal a, digitsVal (b :: t2) with
          | some d, some r => some (d * 10 ^ (b :: t2).length + r)
          | _, _ => none := rfl
      rw [hunf] at h
      rcases hda : digitVal a with _ | d <;>
        rcases hdt : digitsVal (b :: t2) with _ | r <;>
          rw [hda, hdt] at h <;> simp at h
      rcases List.mem_cons.mp hc with rfl | hc2
      · exact digitVal_isSome hda
      · exact ih r hdt c hc2

theorem splitDash_no_dash :
    ∀ l : List Char, (∀ c ∈ l, c ≠ '-') → splitDash l = [l] := by
  intro l
  induction l with
  | nil => intro _; rfl
  | cons a t ih =>
    intro h
    have ha : a ≠ '-' := h a (List.mem_cons_self _ _)
    have ht := ih (fun c hc => h c (List.mem_cons_of_mem _ hc))
    simp [splitDash, ha, ht]

/-- A token whose Python `int(...)` is positive has no dash, so `split('-')`
leaves it whole. -/
theorem pyInt_pos_splitDash {t : List Char} {n : Int}
    (h : pyInt t = some n) (hpos : 0 < n) : splitDash t = [t] := by
  unfold pyInt at h
  split at h
  · -- t = '-' :: rest: the value is non-positive
    rename_i rest
    rcases hd : digitsVal rest with _ | m <;> rw [hd] at h <;> simp at h
    omega
  · -- t = '+' :: rest
    rename_i rest
    rcases hd : digitsVal rest with _ | m <;> rw [hd] at h <;> simp at h
    have hdig := digitsVal_all_digits rest m hd
    have hsp : splitDash rest = [rest] :=
      splitDash_no_dash rest (fun x hx => isDigit_ne_dash (hdig x hx))
    simp [splitDash, hsp]
  · -- no sign: all characters are digits
    rcases hd : digitsVal t with _ | m <;> rw [hd] at h <;> simp at h
    have hdig := digitsVal_all_digits t m hd
    exact splitDash_no_dash t (fun x hx => isDigit_ne_dash (hdig x hx))

theorem portTokBare_iff (t : List Char) (r : PortRange) :
    portTokBare t = some r ↔
      ∃ n : Int, pyInt t = some n ∧ validPort n = true ∧ r = ⟨n, n + 1⟩ := by
  unfold portTokBare
  rcases hp : pyInt t with _ | v
  · simp
  · by_cases hv : validPort v
    · simp only [hv, if_true]
      constructor
      · intro h
        injection h with h
        exact ⟨v, rfl, hv, h.symm⟩
      · rintro ⟨n, hn, hvn, rfl⟩
        injection hn with hn
        subst hn
        rfl
    · simp only [hv, if_false]
      constructor
      · intro h; cases h
      · rintro ⟨n, hn, hvn, rfl⟩
        injection hn with hn
        subst hn
        exact absurd hvn hv

/-- Validity of a port forces positivity. -/
theorem validPort_pos {n : Int} (h : validPort n = true) : 0 < n := by
  simp [validPort] at h
  omega

/-- The swapped-then-validated range path, rewritten through min/max. -/
theorem rangePath_eq (s0 e0 : Int) :
    (if s0 > e0 then
      if validPort e0 && validPort s0 then some (⟨e0, s0 + 1⟩ : PortRange) else none
     else
      if validPort s0 && validPort e0 then some (⟨s0, e0 + 1⟩ : PortRange) else none) =
    (if validPort (min s0 e0) && validPort (max s0 e0) then
      some (⟨min s0 e0, max s0 e0 + 1⟩ : PortRange) else none) := by
  rcases lt_or_le e0 s0 with hlt | hle
  · have hgt : s0 > e0 := hlt
    simp [hgt, min_eq_right hlt.le, max_eq_left hlt.le]
  · have hng : ¬s0 > e0 := not_lt.mpr hle
    simp [hng, min_eq_left hle, max_eq_right hle]


/-- Characterization of `NetcatArgumentParser.port`: a token parses exactly
when it is a bare integer literal in 1-65535 (giving `[n, n+1)`) or two
integer literals joined by a dash with both values in 1-65535 (giving the
swapped range `[min, max+1)`). -/
theorem portTok_iff (t : List Char) (r : PortRange) :
    portTok t = some r ↔
      ((∃ n : Int, pyInt t = some n ∧ validPort n = true ∧ r = ⟨n, n + 1⟩) ∨
       (∃ (a b : List Char) (va vb : Int),
          splitDash t = [a, b] ∧ pyInt a = some va ∧ pyInt b = some vb ∧
          validPort (min va vb) = true ∧ validPort (max va vb) = true ∧
          r = ⟨min va vb, max va vb + 1⟩)) := by
  have hbare := portTokBare_iff t r
  rcases hsd : splitDash t with _ | ⟨a, _ | ⟨b, _ | ⟨c3, tl3⟩⟩⟩
  · -- splitDash t = []
    have hpt : portTok t = portTokBare t := by unfold portTok; rw [hsd]
    rw [hpt, hbare]
    constructor
    · exact Or.inl
    · rintro (h | ⟨a, b, va, vb, hsd2, _⟩)
      · exact h
      · simp at hsd2
  · -- splitDash t = [a]
    have hpt : portTok t = portTokBare t := by unfold portTok; rw [hsd]
    rw [hpt, hbare]
    constructor
    · exact Or.inl
    · rintro (h | ⟨a1, b1, va, vb, hsd2, _⟩)
      · exact h
      · simp at hsd2
  · -- splitDash t = [a, b]: the range path, unless a half fails to parse
    rcases hpa : pyInt a with _ | s0
    · have hpt : portTok t = portTokBare t := by
        unfold portTok; rw [hsd]; dsimp only; rw [hpa]
      rw [hpt, hbare]
      constructor
      · exact Or.inl
      · rintro (h | ⟨a1, b1, va, vb, hsd2, hpa2, hpb2, _⟩)
        · exact h
        · injection hsd2 with h1 h2
          injection h2 with h2 _
          subst h1; subst h2
          rw [hpa] at hpa2
          exact Option.noConfusion hpa2
    · rcases hpb : pyInt b with _ | e0
      · have hpt : portTok t = portTokBare t := by
          unfold portTok; rw [hsd]; dsimp only; rw [hpa, hpb]
        rw [hpt, hbare]
        constructor
        · exact Or.inl
        · rintro (h | ⟨a1, b1, va, vb, hsd2, hpa2, hpb2, _⟩)
          · exact h
          · injection hsd2 with h1 h2
            injection h2 with h2 _
            subst h1; subst h2
            rw [hpb] at hpb2
            exact Option.noConfusion hpb2
      · have hpt : portTok t =
            (if validPort (min s0 e0) && validPort (max s0 e0) then
              some ⟨min s0 e0, max s0 e0 + 1⟩ else none) := by
          unfold portTok; rw [hsd]; dsimp only; rw [hpa, hpb]
          exact rangePath_eq s0 e0
        rw [hpt]
        constructor
        · intro h
          by_cases hv : (validPort (min s0 e0) && validPort (max s0 e0)) = true
          · rw [if_pos hv] at h
            injection h with h
            rw [Bool.and_eq_true] at hv
            exact Or.inr ⟨a, b, s0, e0, rfl, hpa, hpb, hv.1, hv.2, h.symm⟩
          · rw [if_neg hv] at h
            exact Option.noConfusion h
        · rintro (⟨n, hn, hvp, rfl⟩ |
            ⟨a1, b1, va, vb, hsd2, hpa2, hpb2, hvmin, hvmax, rfl⟩)
          · exfalso
            have hsp := pyInt_pos_splitDash hn (validPort_pos hvp)
            rw [hsd] at hsp
            simp at hsp
          · injection hsd2 with h1 h2
            injection h2 with h2 _
            subst h1; subst h2
            rw [hpa] at hpa2; injection hpa2 with hva
            rw [hpb] at hpb2; injection hpb2 with hvb
            subst hva; subst hvb
            simp [hvmin, hvmax]
  · -- splitDash t has three or more pieces
    have hpt : portTok t = portTokBare t := by unfold portTok; rw [hsd]
    rw [hpt, hbare]
    constructor
    · exact Or.inl
    · rintro (h | ⟨a1, b1, va, vb, hsd2, _⟩)
      · exact h
      · simp at hsd2

/-- C1: a positional port token parses exactly when it is a bare integer in
1-65535 — yielding the single-port range `[n, n+1)` — or two dash-joined
integers both in 1-65535, with swapped bounds when start > end (any other
token makes the parse fail, since `portTok` returns `none`); when exactly one
token was given and it denotes a single port, the final parsed value is the
plain integer; otherwise it is the ranges sorted by range start and
flattened into one ordered sequence, nothing merged or deduplicated (the
flattening of a permutation of all parsed ranges, sorted by start). -/
theorem c1_port_parsing :
    (∀ (t : List Char) (r : PortRange),
      portTok t = some r ↔
        ((∃ n : Int, pyInt t = some n ∧ validPort n = true ∧ r = ⟨n, n + 1⟩) ∨
         (∃ (a b : List Char) (va vb : Int),
            splitDash t = [a, b] ∧ pyInt a = some va ∧ pyInt b = some vb ∧
            validPort (min va vb) = true ∧ validPort (max va vb) = true ∧
            r = ⟨min va vb, max va vb + 1⟩))) ∧
    (∀ (t : List Char) (r : PortRange),
      portTok t = some r → r.stop = r.start + 1 →
      parsePortArgs [String.mk t] = some (some (.single r.start))) ∧
    (∀ (tokens : List String) (rs : List PortRange),
      portTokAll (tokens.map String.data) = some rs → rs ≠ [] →
      (¬∃ r, rs = [r] ∧ r.stop = r.start + 1) →
      ∃ rs2 : List PortRange, rs2.Perm rs ∧
        rs2.Pairwise (fun x y => x.start ≤ y.start) ∧
        parsePortArgs tokens =
          some (some (.seq (rs2.map PortRange.toList).flatten))) := by
  refine ⟨portTok_iff, ?_, ?_⟩
  · intro t r h hsingle
    have hmm : portTokAll [t] = some [r] := by
      simp [portTokAll, h]
    have hpp : parsePortArgs [String.mk t] = some (portAction [r]) := by
      unfold parsePortArgs
      rw [show [String.mk t].map String.data = [t] from rfl, hmm]
      rfl
    have hst : r.start = r.stop - 1 := by omega
    rw [hpp]
    simp [portAction, hst]
  · intro tokens rs hmm hne hnotsingle
    haveI : IsTotal PortRange (fun x y => x.start ≤ y.start) :=
      ⟨fun x y => le_total x.start y.start⟩
    haveI : IsTrans PortRange (fun x y => x.start ≤ y.start) :=
      ⟨fun _ _ _ h1 h2 => le_trans h1 h2⟩
    refine ⟨sortRanges rs, List.perm_insertionSort _ rs,
      List.sorted_insertionSort _ rs, ?_⟩
    have hpa : portAction rs = some (.seq (chainRanges rs)) := by
      match rs, hne with
      | [r], _ =>
        have hc : ¬(r.start = r.stop - 1) := by
          intro hc
          exact hnotsingle ⟨r, rfl, by omega⟩
        simp [portAction, hc]
      | r1 :: r2 :: rest, _ => simp [portAction]
    have hpp : parsePortArgs tokens = some (portAction rs) := by
      unfold parsePortArgs
      rw [hmm]
      rfl
    rw [hpp, hpa]
    rfl

/-- C1 witness: "8000-8005" parses to the range `[8000, 8006)`; the single
token "8000" yields the plain integer 8000; the tokens "9000" and
"8000-8001" yield the sorted flattened sequence. -/
theorem c1_port_parsing_witness :
    portTok "8000-8005".data = some ⟨8000, 8006⟩ ∧
    parsePortArgs ["8000"] = some (some (.single 8000)) ∧
    ∃ rs2 : List PortRange, rs2.Perm [⟨9000, 9001⟩, ⟨8000, 8002⟩] ∧
      rs2.Pairwise (fun x y => x.start ≤ y.start) ∧
      parsePortArgs ["9000", "8000-8001"] =
        some (some (.seq (rs2.map PortRange.toList).flatten)) := by
  refine ⟨?_, ?_, ?_⟩
  · exact (c1_port_parsing.1 "8000-8005".data ⟨8000, 8006⟩).mpr
      (Or.inr ⟨"8000".data, "8005".data, 8000, 8005, by decide, by decide,
        by decide, by decide, by decide, by decide⟩)
  · exact c1_port_parsing.2.1 "8000".data ⟨8000, 8001⟩ (by decide) (by decide)
  · exact c1_port_parsing.2.2 ["9000", "8000-8001"] [⟨9000, 9001⟩, ⟨8000, 8002⟩]
      (by decide) (by decide)
      (by rintro ⟨r, hr, _⟩; simp at hr)
